import Mathlib

/-!
Verification of the led_monger embedded lighting controller.

Shallow embedding of:
- `RotaryEncoder` (RotaryEncoder.h): the interrupt-driven quadrature decoder
  state machine `pin_isr`, the synchronized read `getIndex`, and the static
  instance registration done in the constructor.
- `Potentiometer` (Potentiometer.h): the hysteresis analog sampler `update`.
- The main control loop (led_monger.ino `loop`): the speed-to-interval
  divisor and the per-tick channel rendering sequence.
- `LedProgram` subclasses (LedProgram.h): `BlinkerProg`, `RgbBlinkerProg`,
  `SingleColorProg`, `ColorTempProg` `updateStrip` methods.

Machine integers are modelled as `Nat` with explicit `% 256` where uint8_t
overflow matters, and as `Int` where C `int` arithmetic can go negative.
-/

namespace LedMonger

/-! ## RotaryEncoder (RotaryEncoder.h)

The decoder state mutated by `pin_isr`: `enc_prev_pos_` (2-bit composite of
the two pins), `enc_flags_` (bitset), `rotary_index_` (uint8_t, so kept
below 256 by taking `% 256` at each increment/decrement, exactly matching
uint8_t wraparound). -/
structure EncState where
  enc_prev_pos : Nat
  enc_flags : Nat
  rotary_index : Nat
deriving Repr, DecidableEq

/-- The avr-libc macro `bit_is_set(sfr, bit)`: nonzero test of `x & (1 << k)`. -/
def bit_is_set (x k : Nat) : Bool := x &&& (1 <<< k) != 0

/-- Flags after the "first edge" block of `pin_isr` (lines 52-61): if the
previous position was `0x00`, record which direction the first edge is
consistent with. -/
def firstEdgeFlags (s : EncState) (enc_cur_pos : Nat) : Nat :=
  if s.enc_prev_pos = 0 then
    if enc_cur_pos = 1 then s.enc_flags ||| (1 <<< 0)
    else if enc_cur_pos = 2 then s.enc_flags ||| (1 <<< 1)
    else s.enc_flags
  else s.enc_flags

/-- Flags at the recognition check (line 81), reached when
`enc_cur_pos == 0x00`: the closing-edge bits (lines 71-76) have been added
on top of the first-edge bits. -/
def closingFlags (s : EncState) (enc_cur_pos : Nat) : Nat :=
  let f := firstEdgeFlags s enc_cur_pos
  if s.enc_prev_pos = 2 then f ||| (1 <<< 2)
  else if s.enc_prev_pos = 1 then f ||| (1 <<< 3)
  else f

/-- The clockwise recognition condition of line 81. -/
def cwRecognized (f : Nat) : Bool :=
  bit_is_set f 0 && (bit_is_set f 2 || bit_is_set f 4)

/-- The counter-clockwise recognition condition of line 85. -/
def ccwRecognized (f : Nat) : Bool :=
  bit_is_set f 1 && (bit_is_set f 3 || bit_is_set f 4)

/-- One invocation of `RotaryEncoder::pin_isr` (lines 50-94), as a function
of the current 2-bit pin composite `enc_cur_pos`.  The display side effect
(lines 96-103) does not touch the decoder state and is omitted. -/
def pin_isr (s : EncState) (enc_cur_pos : Nat) : EncState :=
  if enc_cur_pos ≠ s.enc_prev_pos then
    let f1 := firstEdgeFlags s enc_cur_pos
    if enc_cur_pos = 3 then
      -- middle of a "step"
      { enc_prev_pos := enc_cur_pos, enc_flags := f1 ||| (1 <<< 4),
        rotary_index := s.rotary_index }
    else if enc_cur_pos = 0 then
      -- the final edge: cross-check the flags, then reset them
      let f2 := closingFlags s enc_cur_pos
      { enc_prev_pos := enc_cur_pos, enc_flags := 0,
        rotary_index :=
          if cwRecognized f2 then (s.rotary_index + 1) % 256
          else if ccwRecognized f2 then (s.rotary_index + 255) % 256
          else s.rotary_index }
    else
      { enc_prev_pos := enc_cur_pos, enc_flags := f1,
        rotary_index := s.rotary_index }
  else
    { s with enc_prev_pos := enc_cur_pos }

/-- Feeding a sequence of pin composites to the interrupt handler. -/
def runISR (s : EncState) (cs : List Nat) : EncState :=
  cs.foldl pin_isr s

/-- The idle decoder state: both pins released, no transition flags,
counter at `i`. -/
def idleAt (i : Nat) : EncState :=
  { enc_prev_pos := 0, enc_flags := 0, rotary_index := i }

/-- The clean clockwise quarter-turn pin sequence 00→01→11→10→00
(the 00 start is the idle state; the remaining states are the inputs). -/
def cwTurn : List Nat := [1, 3, 2, 0]

/-- The clean counter-clockwise quarter-turn pin sequence 00→10→11→01→00. -/
def ccwTurn : List Nat := [2, 3, 1, 0]

/-- The "matching pair of first-edge and closing-edge direction flags":
first-edge-CW with closing-edge-CW (bits 0 and 2), or first-edge-CCW with
closing-edge-CCW (bits 1 and 3). -/
def matchedPair (f : Nat) : Bool :=
  (bit_is_set f 0 && bit_is_set f 2) || (bit_is_set f 1 && bit_is_set f 3)

/-- The synchronized read `RotaryEncoder::getIndex` (lines 139-146): copy `rotary_index_` inside
the critical section, then reduce modulo `max_index_` outside it. -/
def getIndex (s : EncState) (max_index : Nat) : Nat :=
  s.rotary_index % max_index

/-- Repetition of a quarter-turn input sequence `n` times. -/
def repTurns : Nat → List Nat → List Nat
  | 0, _ => []
  | n + 1, t => t ++ repTurns n t

/-- A sequence of `n` accepted clockwise quarter-turns followed by `m` accepted
counter-clockwise quarter-turns. -/
def turnSeq (n m : Nat) : List Nat :=
  repTurns n cwTurn ++ repTurns m ccwTurn

/-- The static-instance registration performed by the `RotaryEncoder`
constructor (lines 127-128): `if (!instance_) instance_ = this;`.
Instances are identified by a `Nat`; `none` is the initial `NULL` of line
149.  The constructor has no failure path: registration always completes
and returns the (possibly unchanged) static pointer. -/
def registerInstance (inst : Option Nat) (self : Nat) : Option Nat :=
  if inst = none then some self else inst

/-- Modelled from the spec: the fail-fast registration the spec requires
for the constructor ("fail construction if occupied"), which is absent
from src/RotaryEncoder.h.  Occupied registration is a construction-time
error. -/
def registerInstanceSpec (inst : Option Nat) (self : Nat) :
    Except Unit (Option Nat) :=
  if inst = none then Except.ok (some self) else Except.error ()

/-! ## Potentiometer (Potentiometer.h)

`int` on the AVR target is 16 bits, so `INT_MAX` is 32767.  All values
that arise (readings ≤ 1023, bins ≤ 31) are far from overflow, and the
`bin_start - HYSTERESIS_` subtraction can go negative, so C `int`
arithmetic is embedded as `Int`. -/
def LOG_BIN_SIZE : Nat := 5

def ADC_BITS : Nat := 10

def HYSTERESIS : Int := 8

def ADC_TO_BIN_SHIFT : Nat := ADC_BITS - LOG_BIN_SIZE

def BIN_SIZE : Int := 2 ^ LOG_BIN_SIZE

def NO_CHANGE : Int := 32767

/-- The raw bin of a 10-bit reading: `next_value >> ADC_TO_BIN_SHIFT_`
(line 210), a shift of a non-negative `int`, i.e. division by 32. -/
def rawBin (r : Nat) : Int := (r : Int) / 2 ^ ADC_TO_BIN_SHIFT

/-- One call to `Potentiometer::update` (lines 207-240), as a function of
the current `current_bin_` and the `analogRead` result (a 10-bit value,
hence a `Nat`).  Returns the new `current_bin_` paired with the call's
return value.  When a changed raw bin is rejected by the hysteresis test,
control reaches the closing brace of the non-void function without a
`return` statement; the missing return value is modelled as `none`. -/
def potUpdate (current_bin : Int) (r : Nat) : Int × Option Int :=
  let next_value : Int := (r : Int)
  let next_bin : Int := rawBin r
  if current_bin = NO_CHANGE then
    (next_bin, some next_bin)
  else if next_bin ≠ current_bin then
    let bin_start : Int := current_bin * 2 ^ ADC_TO_BIN_SHIFT
    let bin_end : Int := bin_start + (BIN_SIZE - 1)
    if next_value < bin_start - HYSTERESIS then
      (next_bin, some next_bin)
    else if next_value > bin_end + HYSTERESIS then
      (next_bin, some next_bin)
    else
      (current_bin, none)
  else
    (current_bin, some NO_CHANGE)

/-- Folding a sequence of readings through `update`, tracking
`current_bin_`. -/
def potRun (current_bin : Int) (rs : List Nat) : Int :=
  rs.foldl (fun b r => (potUpdate b r).1) current_bin

/-! ## The control loop (led_monger.ino) and the LED programs
(LedProgram.h)

The shared pixel buffer of the single `Adafruit_DotStar strip` object is a
list of packed 24-bit colors.  `strip.Color(r, g, b)` takes `uint8_t`
components, so each component is truncated mod 256 before packing. -/
def nr_strips : Nat := 8

def leds_per_strip : Nat := 144

/-- The brightness domain `LedProgram::maxBrightness()`: `1 << 10`. -/
def maxBrightness : Nat := 1 <<< 10

/-- The frequency domain `LedProgram::maxFrequency()`: `1 << 10`. -/
def maxFrequency : Nat := 1 <<< 10

/-- The packer `Adafruit_DotStar::Color(r, g, b)`: pack three `uint8_t` components. -/
def Color (r g b : Nat) : Nat :=
  ((r % 256) <<< 16) ||| ((g % 256) <<< 8) ||| (b % 256)

/-- The per-channel fill loop
`for (i = 0; i < strip.numPixels(); ++i) strip.setPixelColor(i, color)`
shared by all four programs. -/
def fillStrip (buf : List Nat) (color : Nat) : List Nat :=
  (List.range buf.length).foldl (fun b i => b.set i color) buf

/-- The divisor of the tick-interval computation in `loop` (line 127):
`freq != 0 ? log(freq) : 1`, with `log` the C `double` natural logarithm,
modelled over the reals (exact for the division-by-zero question, since
`log(1)` is exactly `0` in IEEE arithmetic as well). -/
noncomputable def intervalDivisor (freq : Nat) : Real :=
  if freq ≠ 0 then Real.log freq else 1

/-- The program `BlinkerProg::updateStrip` (lines 59-75): state is the `on` flag;
returns the new state and the new buffer. -/
def blinkerUpdate (isOn : Bool) (buf : List Nat) (strip_nr b f : Nat) :
    Bool × List Nat :=
  if strip_nr ≠ 0 then (isOn, buf)
  else
    let on2 := !isOn
    let color := if on2 then Color 255 255 255 else Color 0 0 0
    (on2, fillStrip buf color)

/-- The program `RgbBlinkerProg::updateStrip` (lines 84-118): state is `(on, rgb)`. -/
def rgbBlinkerUpdate (st : Bool × Nat) (buf : List Nat) (strip_nr b f : Nat) :
    (Bool × Nat) × List Nat :=
  if strip_nr ≠ 0 then (st, buf)
  else
    let on2 := !st.1
    let rgb := if on2 then (if st.2 = 2 then 0 else st.2 + 1) else st.2
    let base :=
      if rgb = 0 then Color 255 0 0
      else if rgb = 1 then Color 0 255 0
      else Color 0 0 255
    let color := if on2 then base else Color 0 0 0
    ((on2, rgb), fillStrip buf color)

/-- The color wheel `SingleColorProg::wheel` (lines 126-138): `byte` arithmetic; the
parameter is a `byte`, so the incoming value is truncated mod 256, and the
component expressions stay within `[0, 255]` in every branch. -/
def wheel (pos : Nat) : Nat :=
  let p := 255 - pos % 256
  if p < 85 then Color (255 - p * 3) 0 (p * 3)
  else if p < 170 then Color 0 ((p - 85) * 3) (255 - (p - 85) * 3)
  else Color ((p - 170) * 3) (255 - (p - 170) * 3) 0

/-- The program `SingleColorProg::updateStrip` (lines 141-154): stateless. -/
def singleColorUpdate (buf : List Nat) (strip_nr b f : Nat) : List Nat :=
  if strip_nr ≠ 0 then buf
  else fillStrip buf (wheel (f / (maxFrequency / 255)))

/-- The program `ColorTempProg::updateStrip` (lines 202-217), parametrized by the
conversion `color_temp_to_rgb` (lines 170-200), which uses C `double`
`log`/`pow` and is kept abstract; no claim depends on its values. -/
def colorTempUpdate (color_temp_to_rgb : Nat → Nat) (buf : List Nat)
    (strip_nr b f : Nat) : List Nat :=
  if strip_nr ≠ 0 then buf
  else fillStrip buf (color_temp_to_rgb (8 * f + 1000))

/-- What `loop` emits for one channel: the channel index selected by
`updatePins`, the buffer contents at the `strip.show()` call, and the
`setBrightness` argument `brightness / (maxBrightness() / 255)`. -/
structure ChannelOutput where
  strip_nr : Nat
  pixels : List Nat
  brightness_scale : Nat
deriving Repr, DecidableEq

/-- The strip-update for-loop of `loop` (lines 143-162) run over a list of
channel indices, for a pattern with state `σ`: each iteration invokes the
pattern on the shared buffer, then transmits that buffer with the
brightness scale, before the next channel starts.  Returns the final
pattern state, the final shared buffer, and the transmitted outputs in
order. -/
def runStrips (upd : σ → List Nat → Nat → Nat → Nat → σ × List Nat)
    (b f : Nat) : List Nat → σ → List Nat → σ × List Nat × List ChannelOutput
  | [], st, buf => (st, buf, [])
  | i :: rest, st, buf =>
    let r := upd st buf i b f
    let next := runStrips upd b f rest r.1 r.2
    (next.1, next.2.1,
      ⟨i, r.2, b / (maxBrightness / 255)⟩ :: next.2.2)

/-- One full tick of `loop`'s rendering: channels `0, 1, ..., nr_strips-1`
in ascending order (`for (size_t i = 0; i < nr_strips; ++i)`). -/
def tickRun (upd : σ → List Nat → Nat → Nat → Nat → σ × List Nat)
    (b f : Nat) (st : σ) (buf : List Nat) : σ × List Nat × List ChannelOutput :=
  runStrips upd b f (List.range nr_strips) st buf

/-- The pattern-state/buffer pair after the first `k` channel invocations
of a tick whose channel numbering starts at `a`. -/
def stripIter (upd : σ → List Nat → Nat → Nat → Nat → σ × List Nat)
    (b f a : Nat) (st : σ) (buf : List Nat) : Nat → σ × List Nat
  | 0 => (st, buf)
  | k + 1 =>
    let p := stripIter upd b f a st buf k
    upd p.1 p.2 (a + k) b f

/-- The `SingleColorProg` pattern in the control-loop interface: it keeps
no state. -/
def singleColorPattern : Unit → List Nat → Nat → Nat → Nat → Unit × List Nat :=
  fun _ buf i b f => ((), singleColorUpdate buf i b f)

/-- From-scratch render of one channel for an order-independent pattern:
the pattern's full (channel-0) computation run on a fresh buffer of the
channel's pixel count.  This is the per-channel result an unoptimized
renderer with one private buffer per channel would transmit. -/
def singleColorScratch (len b f : Nat) : List Nat :=
  singleColorUpdate (List.replicate len 0) 0 b f

/-- Claim C1: for every clean clockwise quarter-turn pin-state sequence
00→01→11→10→00 fed to `pin_isr` from the idle state, `rotary_index` changes
by exactly +1 (modulo its uint8_t range); for the opposite sequence
00→10→11→01→00 it changes by exactly −1; and no single invocation of
`pin_isr` ever changes the counter by more than 1. -/
theorem C1_quarter_turn_steps :
    (∀ i : Nat, (runISR (idleAt i) cwTurn).rotary_index = (i + 1) % 256) ∧
    (∀ i : Nat, (runISR (idleAt i) ccwTurn).rotary_index = (i + 255) % 256) ∧
    (∀ (s : EncState) (c : Nat),
      (pin_isr s c).rotary_index = s.rotary_index ∨
      (pin_isr s c).rotary_index = (s.rotary_index + 1) % 256 ∨
      (pin_isr s c).rotary_index = (s.rotary_index + 255) % 256) := by
  refine ⟨fun i => ?_, fun i => ?_, fun s c => ?_⟩
  · simp [runISR, cwTurn, idleAt, pin_isr, firstEdgeFlags, closingFlags,
      cwRecognized, ccwRecognized, bit_is_set]
  · simp [runISR, ccwTurn, idleAt, pin_isr, firstEdgeFlags, closingFlags,
      cwRecognized, ccwRecognized, bit_is_set]
  unfold pin_isr
  split
  · split
    · left; rfl
    · split
      · simp only
        split
        · right; left; rfl
        · split
          · right; right; rfl
          · left; rfl
      · left; rfl
  · left; rfl

theorem bit_is_set_eq_testBit (x k : Nat) : bit_is_set x k = x.testBit k := by
  unfold bit_is_set
  rw [Nat.shiftLeft_eq, one_mul, Nat.and_two_pow]
  have hpow : (2 : Nat) ^ k ≠ 0 := pow_ne_zero k (by norm_num)
  cases h : x.testBit k <;> simp [h, hpow]

theorem bit_is_set_lor (a b k : Nat) :
    bit_is_set (a ||| b) k = (bit_is_set a k || bit_is_set b k) := by
  simp [bit_is_set_eq_testBit, Nat.testBit_lor]

theorem bit4_firstEdgeFlags (s : EncState) (c : Nat)
    (h4 : bit_is_set s.enc_flags 4 = false) :
    bit_is_set (firstEdgeFlags s c) 4 = false := by
  have e0 : bit_is_set 1 4 = false := by decide
  have e1 : bit_is_set 2 4 = false := by decide
  unfold firstEdgeFlags
  by_cases hp : s.enc_prev_pos = 0 <;>
    by_cases hc1 : c = 1 <;> by_cases hc2 : c = 2 <;>
      simp [hp, hc1, hc2, bit_is_set_lor, h4, e0, e1]

theorem bit4_closingFlags (s : EncState) (c : Nat)
    (h4 : bit_is_set s.enc_flags 4 = false) :
    bit_is_set (closingFlags s c) 4 = false := by
  have hf := bit4_firstEdgeFlags s c h4
  have e2 : bit_is_set 4 4 = false := by decide
  have e3 : bit_is_set 8 4 = false := by decide
  unfold closingFlags
  by_cases hp2 : s.enc_prev_pos = 2 <;> by_cases hp1 : s.enc_prev_pos = 1 <;>
    simp [hp2, hp1, bit_is_set_lor, hf, e2, e3]

theorem bit4_pin_isr (s : EncState) (c : Nat)
    (h4 : bit_is_set s.enc_flags 4 = false) (hc : c ≠ 3) :
    bit_is_set (pin_isr s c).enc_flags 4 = false := by
  have ez : bit_is_set 0 4 = false := by decide
  unfold pin_isr
  by_cases hp : c = s.enc_prev_pos
  · simp [hp, h4]
  · by_cases h0 : c = 0
    · subst h0
      simp [hp, ez, Ne.symm hp, h4]
    · simp [hp, hc, h0, bit4_firstEdgeFlags s c h4]

theorem pin_isr_rotary_of_no_match (s : EncState) (c : Nat)
    (h4 : bit_is_set s.enc_flags 4 = false)
    (hm : c = 0 → matchedPair (closingFlags s c) = false) :
    (pin_isr s c).rotary_index = s.rotary_index := by
  unfold pin_isr
  by_cases hp : c = s.enc_prev_pos
  · simp [hp]
  · by_cases hc3 : c = 3
    · subst hc3
      simp [hp]
    · by_cases h0 : c = 0
      · subst h0
        have hf4 := bit4_closingFlags s 0 h4
        have hmp := hm rfl
        simp only [matchedPair, Bool.or_eq_false_iff, Bool.and_eq_false_iff] at hmp
        rcases hmp with ⟨hcw, hccw⟩
        have hcwb : cwRecognized (closingFlags s 0) = false := by
          rcases hcw with h | h <;> simp [cwRecognized, h, hf4]
        have hccwb : ccwRecognized (closingFlags s 0) = false := by
          rcases hccw with h | h <;> simp [ccwRecognized, h, hf4]
        simp [hp, hcwb, hccwb]
      · simp [hp, hc3, h0]

theorem runISR_rotary_of_no_match (cs : List Nat) (s : EncState)
    (h4 : bit_is_set s.enc_flags 4 = false)
    (h3 : ∀ c ∈ cs, c ≠ 3)
    (hm : ∀ j, j < cs.length → cs.getD j 0 = 0 →
      matchedPair (closingFlags (runISR s (cs.take j)) (cs.getD j 0)) = false) :
    (runISR s cs).rotary_index = s.rotary_index := by
  induction cs generalizing s with
  | nil => rfl
  | cons a t ih =>
    have hstep : (pin_isr s a).rotary_index = s.rotary_index := by
      apply pin_isr_rotary_of_no_match s a h4
      intro h0
      have := hm 0 (by simp) (by simpa using h0)
      simpa [runISR] using this
    have ha3 : a ≠ 3 := h3 a (by simp)
    have h4' := bit4_pin_isr s a h4 ha3
    have h3' : ∀ c ∈ t, c ≠ 3 := fun c hc => h3 c (by simp [hc])
    have hm' : ∀ j, j < t.length → t.getD j 0 = 0 →
        matchedPair (closingFlags (runISR (pin_isr s a) (t.take j)) (t.getD j 0))
          = false := by
      intro j hj h0
      have := hm (j + 1) (by simpa using hj) (by simpa using h0)
      simpa [runISR, List.take_succ_cons] using this
    calc (runISR s (a :: t)).rotary_index
        = (runISR (pin_isr s a) t).rotary_index := rfl
      _ = (pin_isr s a).rotary_index := ih (pin_isr s a) h4' h3' hm'
      _ = s.rotary_index := hstep

/-- Claim C2: a pin-state sequence fed from the idle state that never
reaches state 11 (input 3) and never presents a matching pair of
first-edge and closing-edge direction flags at a return to 00 leaves
`rotary_index` unchanged; and on every return to 00 (input 0 while the
previous position is nonzero) the transition flags are cleared,
regardless of whether a step was recognized. -/
theorem C2_noise_rejected :
    (∀ (cs : List Nat) (i : Nat),
      (∀ c ∈ cs, c ≠ 3) →
      (∀ j, j < cs.length → cs.getD j 0 = 0 →
        matchedPair (closingFlags (runISR (idleAt i) (cs.take j)) (cs.getD j 0))
          = false) →
      (runISR (idleAt i) cs).rotary_index = i) ∧
    (∀ s : EncState, s.enc_prev_pos ≠ 0 → (pin_isr s 0).enc_flags = 0) := by
  constructor
  · intro cs i h3 hm
    exact runISR_rotary_of_no_match cs (idleAt i) (by simp [idleAt, bit_is_set]) h3 hm
  · intro s hs
    unfold pin_isr
    simp [Ne.symm hs]

/-- Witness for C2: the bounce 00→01→00 (inputs `[1, 0]`) from idle leaves
the counter at 7, and a return to 00 from position 01 with stale flags 9
clears the flags. -/
theorem C2_noise_rejected_witness :
    (runISR (idleAt 7) [1, 0]).rotary_index = 7 ∧
    (pin_isr ⟨1, 9, 7⟩ 0).enc_flags = 0 :=
  ⟨C2_noise_rejected.1 [1, 0] 7 (by decide) (by decide),
   C2_noise_rejected.2 ⟨1, 9, 7⟩ (by decide)⟩

theorem runISR_append (s : EncState) (xs ys : List Nat) :
    runISR s (xs ++ ys) = runISR (runISR s xs) ys :=
  List.foldl_append _ _ _ _

theorem runISR_cwTurn_idle (i : Nat) :
    runISR (idleAt i) cwTurn = idleAt ((i + 1) % 256) := by
  simp [runISR, cwTurn, idleAt, pin_isr, firstEdgeFlags, closingFlags,
    cwRecognized, ccwRecognized, bit_is_set]

theorem runISR_ccwTurn_idle (i : Nat) :
    runISR (idleAt i) ccwTurn = idleAt ((i + 255) % 256) := by
  simp [runISR, ccwTurn, idleAt, pin_isr, firstEdgeFlags, closingFlags,
    cwRecognized, ccwRecognized, bit_is_set]

theorem runISR_repTurns_cw (n : Nat) :
    ∀ i, i < 256 → runISR (idleAt i) (repTurns n cwTurn) = idleAt ((i + n) % 256) := by
  induction n with
  | zero =>
    intro i hi
    simp [repTurns, runISR, Nat.mod_eq_of_lt hi]
  | succ n ih =>
    intro i hi
    rw [repTurns, runISR_append, runISR_cwTurn_idle,
      ih _ (Nat.mod_lt _ (by norm_num))]
    congr 1
    rw [Nat.mod_add_mod]
    omega

theorem runISR_repTurns_ccw (m : Nat) :
    ∀ i, i < 256 →
      runISR (idleAt i) (repTurns m ccwTurn) = idleAt ((i + 255 * m) % 256) := by
  induction m with
  | zero =>
    intro i hi
    simp [repTurns, runISR, Nat.mod_eq_of_lt hi]
  | succ m ih =>
    intro i hi
    rw [repTurns, runISR_append, runISR_ccwTurn_idle,
      ih _ (Nat.mod_lt _ (by norm_num))]
    congr 1
    rw [Nat.mod_add_mod]
    ring_nf

/-- Counterexample to claim C3 as stated: with `indexModulus = 3`, after
N = 0 accepted CW steps and M = 1 accepted CCW step, `getIndex` returns
`255 % 3 = 0` (the uint8_t counter wrapped to 255), not
`(N - M) mod 3 = 2` as the claim requires. -/
theorem C3_counterexample :
    getIndex (runISR (idleAt 0) (turnSeq 0 1)) 3 = 0 ∧
    ((0 : Int) - 1) % 3 = 2 ∧
    (getIndex (runISR (idleAt 0) (turnSeq 0 1)) 3 : Int) ≠ ((0 : Int) - 1) % 3 := by
  decide

/-- Claim C3, amended: after N accepted CW steps and M accepted CCW steps
from a zeroed counter, `getIndex` returns `((N + 255·M) mod 256) mod
indexModulus` — that is, `(N − M)` reduced modulo the uint8_t counter range
first and modulo `indexModulus` second.  This agrees with the claimed
`(N − M) mod indexModulus` only when `indexModulus` divides 256. -/
theorem C3_snapshot_amended (n m max_index : Nat) :
    getIndex (runISR (idleAt 0) (turnSeq n m)) max_index
      = ((n + 255 * m) % 256) % max_index := by
  rw [turnSeq, runISR_append, runISR_repTurns_cw n 0 (by norm_num),
    runISR_repTurns_ccw m _ (Nat.mod_lt _ (by norm_num))]
  unfold getIndex idleAt
  rw [Nat.mod_add_mod]
  norm_num

/-- Counterexample to claim C5 as stated: constructing encoder 0 and then
encoder 1, the code keeps the first instance and silently ignores the
second (first-writer-wins), whereas the spec-modelled fail-fast
registration rejects the second construction. -/
theorem C5_counterexample :
    registerInstance (registerInstance none 0) 1 = some 0 ∧
    registerInstanceSpec (registerInstance none 0) 1 = Except.error () :=
  ⟨rfl, rfl⟩

/-- Claim C5, amended: constructing a second concurrent `RotaryEncoder`
does not fail at construction time; the registration is silently skipped
and the static instance pointer keeps the first instance
(first-writer-wins), while registration of a first instance succeeds. -/
theorem C5_single_instance_amended (a b : Nat) :
    registerInstance (some a) b = some a ∧ registerInstance none a = some a := by
  constructor <;> simp [registerInstance]

/-- Claim C4, code evaluated at the failing input (status code_bug): with
`current_bin_ = 15` (readings 480-511) a reading of 512 has raw bin 16 but
is within the hysteresis margin (`512 ≤ 511 + 8`), so per the claim the
call must leave the bin unchanged and report "no change"; the code leaves
the bin unchanged but falls off the end of the non-void function without
returning `NO_CHANGE` (no defined return value, modelled `none`).  The
neighbouring branches behave as claimed: 520 clears the margin and is
accepted, 471 clears the lower margin and is accepted, and an unchanged
raw bin (500) returns `NO_CHANGE`. -/
theorem C4_hysteresis_missing_return :
    potUpdate 15 512 = (15, none) ∧
    potUpdate 15 520 = (16, some 16) ∧
    potUpdate 15 471 = (14, some 14) ∧
    potUpdate 15 479 = (15, none) ∧
    potUpdate 15 500 = (15, some NO_CHANGE) := by
  decide

theorem potUpdate_bin_cases (cb : Int) (r : Nat) (h : cb ≠ NO_CHANGE) :
    (potUpdate cb r).1 = cb ∨ (potUpdate cb r).1 = rawBin r := by
  unfold potUpdate
  simp only [h, if_false, ite_false]
  by_cases h1 : rawBin r ≠ cb <;> by_cases h2 : (r : Int) < cb * 2 ^ ADC_TO_BIN_SHIFT - HYSTERESIS <;>
    by_cases h3 : (r : Int) > cb * 2 ^ ADC_TO_BIN_SHIFT + (BIN_SIZE - 1) + HYSTERESIS <;>
      simp [h1, h2, h3]

theorem rawBin_nonneg (r : Nat) : 0 ≤ rawBin r := by
  unfold rawBin
  positivity

theorem rawBin_le_31 (r : Nat) (hr : r ≤ 1023) : rawBin r ≤ 31 := by
  unfold rawBin ADC_TO_BIN_SHIFT ADC_BITS LOG_BIN_SIZE
  norm_num
  omega

theorem potRun_inv (rs : List Nat) : ∀ cb : Int,
    (∀ r ∈ rs, r ≤ 1023) → 0 ≤ cb → cb ≤ 31 →
    0 ≤ potRun cb rs ∧ potRun cb rs ≤ 31 ∧
      (potRun cb rs = cb ∨ ∃ r ∈ rs, potRun cb rs = rawBin r) := by
  induction rs with
  | nil =>
    intro cb _ h0 h31
    exact ⟨h0, h31, Or.inl rfl⟩
  | cons a t ih =>
    intro cb hr h0 h31
    have ha : a ≤ 1023 := hr a (by simp)
    have hcb : cb ≠ NO_CHANGE := by
      unfold NO_CHANGE
      omega
    have hstep := potUpdate_bin_cases cb a hcb
    have h0' : 0 ≤ (potUpdate cb a).1 := by
      rcases hstep with h | h <;> rw [h]
      · exact h0
      · exact rawBin_nonneg a
    have h31' : (potUpdate cb a).1 ≤ 31 := by
      rcases hstep with h | h <;> rw [h]
      · exact h31
      · exact rawBin_le_31 a ha
    have hr' : ∀ r ∈ t, r ≤ 1023 := fun r hmem => hr r (by simp [hmem])
    have hrec := ih (potUpdate cb a).1 hr' h0' h31'
    refine ⟨hrec.1, hrec.2.1, ?_⟩
    rcases hrec.2.2 with h | ⟨r, hrmem, hreq⟩
    · rcases hstep with hs | hs
      · exact Or.inl (by rw [potRun, List.foldl_cons, ← potRun] at *; rw [h, hs])
      · exact Or.inr ⟨a, by simp, by rw [potRun, List.foldl_cons, ← potRun] at *; rw [h, hs]⟩
    · exact Or.inr ⟨r, by simp [hrmem], by rw [potRun, List.foldl_cons, ← potRun] at *; exact hreq⟩

/-- Claim C10: for any sequence of 10-bit readings, once the sampler has
been initialized by its first call, `current_bin_` always lies in
`[0, 31]`, always equals the raw bin of some previously observed reading,
and is never again equal to the `NO_CHANGE` sentinel. -/
theorem C10_current_bin_invariant (r0 : Nat) (rs : List Nat)
    (hr : ∀ r ∈ r0 :: rs, r ≤ 1023) :
    0 ≤ potRun (potUpdate NO_CHANGE r0).1 rs ∧
    potRun (potUpdate NO_CHANGE r0).1 rs ≤ 31 ∧
    potRun (potUpdate NO_CHANGE r0).1 rs ≠ NO_CHANGE ∧
    ∃ r ∈ r0 :: rs, potRun (potUpdate NO_CHANGE r0).1 rs = rawBin r := by
  have hinit : (potUpdate NO_CHANGE r0).1 = rawBin r0 := by
    unfold potUpdate
    simp
  have hr0 : r0 ≤ 1023 := hr r0 (by simp)
  have hrt : ∀ r ∈ rs, r ≤ 1023 := fun r hmem => hr r (by simp [hmem])
  have h := potRun_inv rs (potUpdate NO_CHANGE r0).1
    hrt (hinit ▸ rawBin_nonneg r0) (hinit ▸ rawBin_le_31 r0 hr0)
  refine ⟨h.1, h.2.1, ?_, ?_⟩
  · intro hc
    have h2 := h.2.1
    rw [hc] at h2
    norm_num [NO_CHANGE] at h2
  rcases h.2.2 with heq | ⟨r, hrmem, hreq⟩
  · exact ⟨r0, by simp, heq.trans hinit⟩
  · exact ⟨r, by simp [hrmem], hreq⟩

/-- Witness for C10: the spec's own end-to-end reading sequence
`500, 503, 497, 560`. -/
theorem C10_current_bin_invariant_witness :
    0 ≤ potRun (potUpdate NO_CHANGE 500).1 [503, 497, 560] ∧
    potRun (potUpdate NO_CHANGE 500).1 [503, 497, 560] ≤ 31 ∧
    potRun (potUpdate NO_CHANGE 500).1 [503, 497, 560] ≠ NO_CHANGE ∧
    ∃ r ∈ [500, 503, 497, 560], potRun (potUpdate NO_CHANGE 500).1 [503, 497, 560] = rawBin r :=
  C10_current_bin_invariant 500 [503, 497, 560] (by decide)

/-- Claim C6, code evaluated at the failing input (status code_bug): the
guard `freq != 0` does not prevent a zero divisor — at speed reading 1
(within `[0, 1023]`) the divisor is `log(1) = 0` and
`1000UL / log(freq)` divides by zero; the fallback works only at reading 0,
where the divisor is 1. -/
theorem C6_interval_divisor_zero :
    intervalDivisor 1 = 0 ∧ intervalDivisor 0 = 1 := by
  constructor
  · simp [intervalDivisor]
  · simp [intervalDivisor]

theorem stripIter_shift (upd : σ → List Nat → Nat → Nat → Nat → σ × List Nat)
    (b f a : Nat) (st : σ) (buf : List Nat) : ∀ k,
    stripIter upd b f (a + 1) (upd st buf a b f).1 (upd st buf a b f).2 k
      = stripIter upd b f a st buf (k + 1) := by
  intro k
  induction k with
  | zero => simp [stripIter]
  | succ k ih =>
    rw [stripIter, stripIter, ih]
    have : a + 1 + k = a + (k + 1) := by omega
    rw [this]

theorem runStrips_range' (upd : σ → List Nat → Nat → Nat → Nat → σ × List Nat)
    (b f : Nat) : ∀ (n a : Nat) (st : σ) (buf : List Nat),
    ((runStrips upd b f (List.range' a n) st buf).2.2.map ChannelOutput.strip_nr
        = List.range' a n) ∧
    (∀ o ∈ (runStrips upd b f (List.range' a n) st buf).2.2,
        o.brightness_scale = b / (maxBrightness / 255)) ∧
    (∀ k, k < n →
      ((runStrips upd b f (List.range' a n) st buf).2.2.getD k ⟨0, [], 0⟩).pixels
        = (stripIter upd b f a st buf (k + 1)).2) := by
  intro n
  induction n with
  | zero =>
    intro a st buf
    refine ⟨rfl, by simp [List.range', runStrips], ?_⟩
    intro k hk
    omega
  | succ n ih =>
    intro a st buf
    rw [List.range'_succ]
    have hrec := ih (a + 1) (upd st buf a b f).1 (upd st buf a b f).2
    refine ⟨?_, ?_, ?_⟩
    · simp only [runStrips, List.map_cons, hrec.1, List.range'_succ]
    · intro o ho
      simp only [runStrips, List.mem_cons] at ho
      rcases ho with ho | ho
      · rw [ho]
      · exact hrec.2.1 o ho
    · intro k hk
      match k with
      | 0 =>
        simp [runStrips, stripIter]
      | k + 1 =>
        have := hrec.2.2 k (by omega)
        simp only [runStrips, List.getD_cons_succ]
        rw [this, stripIter_shift]

/-- Claim C7: in every tick, for every pattern, the control loop produces
exactly one output per channel for channels `0, 1, ..., 7` in ascending
order; every produced channel index is below `nr_strips`; each channel's
transmitted pixels are exactly the shared buffer right after that
channel's pattern invocation (fill, then scale, then transmit, before the
next channel starts); and the brightness scale of every transmission is
`brightness / (maxBrightness() / 255)`. -/
theorem C7_tick_channel_order {σ : Type}
    (upd : σ → List Nat → Nat → Nat → Nat → σ × List Nat)
    (b f : Nat) (st : σ) (buf : List Nat) :
    ((tickRun upd b f st buf).2.2.map ChannelOutput.strip_nr = List.range nr_strips) ∧
    (∀ o ∈ (tickRun upd b f st buf).2.2, o.strip_nr < nr_strips) ∧
    (∀ o ∈ (tickRun upd b f st buf).2.2,
        o.brightness_scale = b / (maxBrightness / 255)) ∧
    (∀ k, k < nr_strips →
      ((tickRun upd b f st buf).2.2.getD k ⟨0, [], 0⟩).pixels
        = (stripIter upd b f 0 st buf (k + 1)).2) := by
  simp only [tickRun, List.range_eq_range']
  have h := runStrips_range' upd b f nr_strips 0 st buf
  refine ⟨h.1, ?_, h.2.1, h.2.2⟩
  intro o ho
  have hmem : o.strip_nr ∈ List.map ChannelOutput.strip_nr
      (runStrips upd b f (List.range' 0 nr_strips) st buf).2.2 :=
    List.mem_map_of_mem _ ho
  rw [h.1, ← List.range_eq_range'] at hmem
  exact List.mem_range.mp hmem

theorem foldl_set_range (c : Nat) : ∀ (n : Nat) (buf : List Nat), n ≤ buf.length →
    (List.range n).foldl (fun b i => b.set i c) buf
      = List.replicate n c ++ buf.drop n := by
  intro n
  induction n with
  | zero =>
    intro buf _
    simp
  | succ n ih =>
    intro buf h
    rw [List.range_succ, List.foldl_append, ih buf (by omega)]
    simp only [List.foldl_cons, List.foldl_nil]
    have hlt : n < (List.replicate n c ++ List.drop n buf).length := by
      simp
      omega
    rw [List.set_eq_take_cons_drop c hlt]
    rw [List.take_append_of_le_length (by simp), List.take_replicate]
    rw [List.drop_append_eq_append_drop]
    simp only [List.length_replicate]
    have h2 : List.drop (n + 1) (List.replicate n c) = [] := by
      apply List.drop_eq_nil_of_le
      simp
    simp [h2, Nat.min_self, List.replicate_succ', List.append_assoc]

theorem fillStrip_eq_replicate (buf : List Nat) (c : Nat) :
    fillStrip buf c = List.replicate buf.length c := by
  rw [fillStrip, foldl_set_range c buf.length buf (le_refl _)]
  simp

/-- Claim C8: for the order-independent `SingleColorProg`, rendering
channel 0 and then channels 1..7 on the shared buffer (the replay-baseline
optimization: channels 1..7 return immediately and retransmit the shared
buffer) transmits, for every channel, exactly the pixel data of an
independent from-scratch render of that channel. -/
theorem C8_replay_baseline_equiv (buf : List Nat) (b f : Nat) :
    (tickRun singleColorPattern b f () buf).2.2.map ChannelOutput.pixels
      = List.replicate nr_strips (singleColorScratch buf.length b f) := by
  have hrange : List.range nr_strips = [0, 1, 2, 3, 4, 5, 6, 7] := by rfl
  rw [tickRun, hrange]
  simp [runStrips, singleColorPattern, singleColorUpdate, singleColorScratch,
    fillStrip_eq_replicate, nr_strips]

/-- Claim C9: each of the four shipped patterns, invoked with
`strip_nr ≠ 0`, returns immediately, leaving both the pixel buffer and all
pattern-internal state unchanged; consequently a full tick with the
blinker pattern toggles its `on` flag exactly once and transmits, for
every one of the 8 channels, exactly the pixel data written by the
channel-0 invocation. -/
theorem C9_nonzero_strip_noop :
    (∀ (isOn : Bool) (buf : List Nat) (n b f : Nat), n ≠ 0 →
        blinkerUpdate isOn buf n b f = (isOn, buf)) ∧
    (∀ (st : Bool × Nat) (buf : List Nat) (n b f : Nat), n ≠ 0 →
        rgbBlinkerUpdate st buf n b f = (st, buf)) ∧
    (∀ (buf : List Nat) (n b f : Nat), n ≠ 0 →
        singleColorUpdate buf n b f = buf) ∧
    (∀ (ct : Nat → Nat) (buf : List Nat) (n b f : Nat), n ≠ 0 →
        colorTempUpdate ct buf n b f = buf) ∧
    (∀ (isOn : Bool) (buf : List Nat) (b f : Nat),
        (tickRun blinkerUpdate b f isOn buf).1 = !isOn ∧
        (tickRun blinkerUpdate b f isOn buf).2.2.map ChannelOutput.pixels
          = List.replicate nr_strips (blinkerUpdate isOn buf 0 b f).2) := by
  have hrange : List.range nr_strips = [0, 1, 2, 3, 4, 5, 6, 7] := by rfl
  refine ⟨?_, ?_, ?_, ?_, ?_⟩
  · intro isOn buf n b f hn
    simp [blinkerUpdate, hn]
  · intro st buf n b f hn
    simp [rgbBlinkerUpdate, hn]
  · intro buf n b f hn
    simp [singleColorUpdate, hn]
  · intro ct buf n b f hn
    simp [colorTempUpdate, hn]
  · intro isOn buf b f
    rw [tickRun, hrange]
    constructor <;> simp [runStrips, blinkerUpdate, nr_strips, List.replicate]

/-- Witness for C9: each pattern's no-op at channel 1, and a blinker tick
from `on = false` over a 2-pixel buffer. -/
theorem C9_nonzero_strip_noop_witness :
    blinkerUpdate false [7, 7] 1 2 3 = (false, [7, 7]) ∧
    rgbBlinkerUpdate (true, 2) [7, 7] 2 2 3 = ((true, 2), [7, 7]) ∧
    singleColorUpdate [7, 7] 3 2 3 = [7, 7] ∧
    colorTempUpdate (fun t => t) [7, 7] 7 2 3 = [7, 7] ∧
    ((tickRun blinkerUpdate 2 3 false [7, 7]).1 = !false ∧
      (tickRun blinkerUpdate 2 3 false [7, 7]).2.2.map ChannelOutput.pixels
        = List.replicate nr_strips (blinkerUpdate false [7, 7] 0 2 3).2) :=
  ⟨C9_nonzero_strip_noop.1 false [7, 7] 1 2 3 (by decide),
   C9_nonzero_strip_noop.2.1 (true, 2) [7, 7] 2 2 3 (by decide),
   C9_nonzero_strip_noop.2.2.1 [7, 7] 3 2 3 (by decide),
   C9_nonzero_strip_noop.2.2.2.1 (fun t => t) [7, 7] 7 2 3 (by decide),
   C9_nonzero_strip_noop.2.2.2.2 false [7, 7] 2 3⟩

/-- Witness for C7: a blinker tick at brightness 2, frequency 3, from
`on = false` over a 1-pixel buffer. -/
theorem C7_tick_channel_order_witness :
    ((tickRun blinkerUpdate 2 3 false [5]).2.2.map ChannelOutput.strip_nr
        = List.range nr_strips) ∧
    (((tickRun blinkerUpdate 2 3 false [5]).2.2.getD 0 ⟨0, [], 0⟩).strip_nr
        < nr_strips) ∧
    (((tickRun blinkerUpdate 2 3 false [5]).2.2.getD 0 ⟨0, [], 0⟩).brightness_scale
        = 2 / (maxBrightness / 255)) ∧
    (((tickRun blinkerUpdate 2 3 false [5]).2.2.getD 2 ⟨0, [], 0⟩).pixels
        = (stripIter blinkerUpdate 2 3 0 false [5] (2 + 1)).2) :=
  have h := C7_tick_channel_order blinkerUpdate 2 3 false [5]
  ⟨h.1,
   h.2.1 ((tickRun blinkerUpdate 2 3 false [5]).2.2.getD 0 ⟨0, [], 0⟩) (by decide),
   h.2.2.1 ((tickRun blinkerUpdate 2 3 false [5]).2.2.getD 0 ⟨0, [], 0⟩) (by decide),
   h.2.2.2 2 (by decide)⟩

end LedMonger
